import Mathlib

/-!
# Quantifyer calculation core — shallow embedding

A shallow embedding of the Quantifyer calculation pipeline: input
validation, strategy selection and the three chained calculators
(recovery, correction factor, concentration) operating over the five
in-memory tables of a dataset bundle.  Numeric values are modelled as
rationals; tables are association lists keyed by sample and compound
identifiers.
-/

/-- Modelled from the spec: sample-type enumeration of `SampleRecord`
(`{unknown, blank, QC, spike, internal-standard-check}`). -/
inductive SampleType where
  | unknown
  | blank
  | qc
  | spike
  | is_check
deriving DecidableEq, Repr

/-- Modelled from the spec: one row of the `MeasurementTable` (raw
quantitation export), keyed by `(sample_id, compound_name)`.  The
`response` column is the peak-area ratio of the compound to its matched
internal standard. -/
structure MeasurementRow where
  sample_id : String
  compound_name : String
  response : ℚ
deriving DecidableEq, Repr

/-- Modelled from the spec: a `SampleRecord` identifying a physical
sample; `norm_property` is the numeric matrix property (mass or volume)
used for concentration normalization; spike-tagged samples carry the
identifier of their native (unspiked) counterpart sample and the spiked
amount used by the recovery calculator. -/
structure SampleRecord where
  sample_id : String
  sample_type : SampleType
  norm_property : ℚ
  native_counterpart : Option String
  spiked_amount : ℚ
deriving DecidableEq, Repr

/-- Modelled from the spec: one entry of the `QCTable`, giving the
expected/true concentration for a compound. -/
structure QCEntry where
  compound_name : String
  expected_concentration : ℚ
deriving DecidableEq, Repr

/-- Modelled from the spec: the immutable dataset bundle holding the five
named tables (`quant_file`, `is_correspondence_file`,
`sample_properties_file`, `qc_file`, `is_concentration_file`). -/
structure Dataset where
  measurements : List MeasurementRow
  is_correspondence : List (String × String)
  sample_properties : List SampleRecord
  qc_table : List QCEntry
  is_concentration : List (String × ℚ)
deriving DecidableEq, Repr

/-- Modelled from the spec: the public constructor of the dataset bundle
(`data.Data`), which requires all five named tabular inputs. -/
def Data (quant_file : List MeasurementRow)
    (is_correspondence_file : List (String × String))
    (sample_properties_file : List SampleRecord)
    (qc_file : List QCEntry)
    (is_concentration_file : List (String × ℚ)) : Dataset :=
  ⟨quant_file, is_correspondence_file, sample_properties_file,
    qc_file, is_concentration_file⟩

/-- Compound names appearing in the measurement table, deduplicated. -/
def Dataset.compounds (d : Dataset) : List String :=
  (d.measurements.map (·.compound_name)).dedup

/-- The `(sample_id, compound_name)` keys of the measurement table. -/
def Dataset.measurementKeys (d : Dataset) : List (String × String) :=
  d.measurements.map (fun r => (r.sample_id, r.compound_name))

/-- Look up the measurement row of a `(sample_id, compound_name)` key. -/
def Dataset.findMeasurement (d : Dataset) (s c : String) :
    Option MeasurementRow :=
  d.measurements.find? (fun r => r.sample_id == s && r.compound_name == c)

/-- Internal-standard id matched to a compound, from the correspondence
table. -/
def Dataset.isIdOf (d : Dataset) (c : String) : Option String :=
  (d.is_correspondence.find? (fun p => p.1 == c)).map (·.2)

/-- Nominal concentration of the internal standard matched to a compound:
correspondence lookup followed by the concentration-table lookup. -/
def Dataset.isConcOf (d : Dataset) (c : String) : Option ℚ :=
  (d.isIdOf c).bind (fun i =>
    (d.is_concentration.find? (fun p => p.1 == i)).map (·.2))

/-- Internal-standard-normalized measured concentration of a compound in a
sample: the response (peak-area ratio to the internal standard) times the
matched internal standard's nominal concentration.  `none` when the
measurement row or the internal-standard data is missing. -/
def Dataset.measuredConc (d : Dataset) (s c : String) : Option ℚ :=
  match d.findMeasurement s c, d.isConcOf c with
  | some r, some k => some (r.response * k)
  | _, _ => none

/-- Normalization property (mass or volume) of a sample. -/
def Dataset.normPropertyOf (d : Dataset) (s : String) : Option ℚ :=
  (d.sample_properties.find? (fun p => p.sample_id == s)).map
    (·.norm_property)

/-- Whether the (optional) QC table was supplied with any entries. -/
def Dataset.hasQC (d : Dataset) : Prop := d.qc_table ≠ []

/-- Whether any spike-tagged samples are present. -/
def Dataset.hasSpikes (d : Dataset) : Prop :=
  ∃ s ∈ d.sample_properties, s.sample_type = SampleType.spike

/-- Whether the (optional) internal-standard-concentration table was
supplied with any entries. -/
def Dataset.hasISConc (d : Dataset) : Prop := d.is_concentration ≠ []

instance (d : Dataset) : Decidable d.hasQC := by
  unfold Dataset.hasQC; infer_instance

instance (d : Dataset) : Decidable d.hasSpikes := by
  unfold Dataset.hasSpikes; infer_instance

instance (d : Dataset) : Decidable d.hasISConc := by
  unfold Dataset.hasISConc; infer_instance

/-- Arithmetic mean of a list of rationals (`0` on the empty list, since
`0 / 0 = 0` in `ℚ`). -/
def mean (l : List ℚ) : ℚ := l.sum / (l.length : ℚ)

/-- Sample ids of the QC-tagged samples. -/
def Dataset.qcSampleIds (d : Dataset) : List String :=
  (d.sample_properties.filter
    (fun s => s.sample_type == SampleType.qc)).map (·.sample_id)

/-- Measured (IS-normalized) concentrations of a compound across the
replicate QC samples, skipping QC samples with no measurement row. -/
def Dataset.qcMeasuredConcs (d : Dataset) (c : String) : List ℚ :=
  (d.qcSampleIds).filterMap (fun s => d.measuredConc s c)

/-- Modelled from the spec: provenance tag of a correction factor —
derived from QC data (`measured`) or the configurable fallback
(`default`). -/
inductive CFTag where
  | measured
  | default
deriving DecidableEq, Repr

/-- Modelled from the spec: a correction-factor value is either a numeric
factor with its provenance tag, or the sentinel `undefined` produced when
the measured QC concentration is zero. -/
inductive CFValue where
  | val : ℚ → CFTag → CFValue
  | undefined : CFValue
deriving DecidableEq, Repr

/-- One row of the correction-factor result table, keyed by compound. -/
structure CFEntry where
  compound_name : String
  value : CFValue
deriving DecidableEq, Repr

/-- QC-table lookup for a compound. -/
def Dataset.lookupQC (d : Dataset) (c : String) : Option QCEntry :=
  d.qc_table.find? (fun e => e.compound_name == c)

/-- Modelled from the spec (`qc.CorrectionFactor`): correction factor of a
single compound.  With a QC reference entry, the factor is
`expected_concentration` divided by the arithmetic mean of the measured
QC-sample concentrations, tagged `measured`; a zero mean yields the
sentinel `undefined`; compounds absent from the QC table get the default
factor `1.0` tagged `default`. -/
def correctionFactorFor (d : Dataset) (c : String) : CFEntry :=
  match d.lookupQC c with
  | none => ⟨c, CFValue.val 1 CFTag.default⟩
  | some e =>
    let m := mean (d.qcMeasuredConcs c)
    if m = 0 then ⟨c, CFValue.undefined⟩
    else ⟨c, CFValue.val (e.expected_concentration / m) CFTag.measured⟩

/-- Modelled from the spec
(`qc.CorrectionFactor.calculate_correction_factor`): the per-compound
correction-factor result table, one row per compound of the run. -/
def calculate_correction_factor (d : Dataset) : List CFEntry :=
  d.compounds.map (correctionFactorFor d)

/-- One computed row of the recovery result table, keyed by
`(sample_id, compound_name)` of the spiked sample; `value` is a
percentage. -/
structure RecoveryRow where
  sample_id : String
  compound_name : String
  value : ℚ
deriving DecidableEq, Repr

/-- A per-row computation gap: a `(sample, compound)` pair excluded from
the result with a reason code. -/
structure RecoveryGap where
  sample_id : String
  compound_name : String
  reason : String
deriving DecidableEq, Repr

/-- Modelled from the spec (`recovery.Recovery`): the recovery result —
the computed rows plus the excluded pairs, each excluded pair carrying a
reason code (never silently zeroed). -/
structure RecoveryResult where
  rows : List RecoveryRow
  gaps : List RecoveryGap
deriving DecidableEq, Repr

/-- The spike-tagged sample records. -/
def Dataset.spikeSamples (d : Dataset) : List SampleRecord :=
  d.sample_properties.filter (fun s => s.sample_type == SampleType.spike)

/-- All candidate (spike sample, compound) pairs of the run. -/
def Dataset.recoveryPairs (d : Dataset) : List (SampleRecord × String) :=
  d.spikeSamples.flatMap (fun s => d.compounds.map (fun c => (s, c)))

/-- Recovery of one (spike sample, compound) pair:
`(spiked − native) / spiked_amount × 100`, where both the spiked and the
native measurements are internal-standard normalized
(`Dataset.measuredConc`) before subtraction.  `none` when either
measurement cannot be obtained. -/
def recoveryRowFor (d : Dataset) (s : SampleRecord) (c : String) :
    Option RecoveryRow :=
  match s.native_counterpart with
  | none => none
  | some nid =>
    match d.measuredConc s.sample_id c, d.measuredConc nid c with
    | some sp, some nat =>
        some ⟨s.sample_id, c, (sp - nat) / s.spiked_amount * 100⟩
    | _, _ => none

/-- Gap record of one (spike sample, compound) pair: when the spiked
measurement exists but the native counterpart measurement is missing, the
pair is excluded with reason `missing_native`. -/
def recoveryGapFor (d : Dataset) (s : SampleRecord) (c : String) :
    Option RecoveryGap :=
  match d.measuredConc s.sample_id c with
  | none => none
  | some _ =>
    match s.native_counterpart with
    | none => some ⟨s.sample_id, c, "missing_native"⟩
    | some nid =>
      match d.measuredConc nid c with
      | some _ => none
      | none => some ⟨s.sample_id, c, "missing_native"⟩

/-- Modelled from the spec (`recovery.Recovery.calculate_recovery`): for
each spike-tagged sample and each compound of the run, compute
`(spiked − native) / spiked_amount × 100` from IS-normalized
measurements; pairs whose native counterpart is missing are excluded from
the rows and recorded as gaps with reason `missing_native`. -/
def calculate_recovery (d : Dataset) : RecoveryResult :=
  ⟨(d.recoveryPairs).filterMap (fun p => recoveryRowFor d p.1 p.2),
   (d.recoveryPairs).filterMap (fun p => recoveryGapFor d p.1 p.2)⟩

/-- Modelled from the spec: a reported concentration is either a numeric
value or the terminal per-row marker `notComputable` (propagated from an
`undefined` correction factor or a missing join partner). -/
inductive ConcValue where
  | val : ℚ → ConcValue
  | notComputable : ConcValue
deriving DecidableEq, Repr

/-- One row of the concentration result table, keyed by
`(sample_id, compound_name)`. -/
structure ConcRow where
  sample_id : String
  compound_name : String
  value : ConcValue
deriving DecidableEq, Repr

/-- Correction-factor lookup in a correction-factor result table. -/
def cfLookup (cfs : List CFEntry) (c : String) : Option CFValue :=
  (cfs.find? (fun e => e.compound_name == c)).map (·.value)

/-- Recovery lookup for a `(sample_id, compound_name)` key in a recovery
result. -/
def recoveryLookup (res : RecoveryResult) (s c : String) : Option ℚ :=
  (res.rows.find?
    (fun r => r.sample_id == s && r.compound_name == c)).map (·.value)

/-- Modelled from the spec
(`concentration_calculator.MassBasedConcentrationCalculator`):
concentration of one measurement row —
`response × internal_standard_concentration × correction_factor /
sample_normalization_property`, further divided by `recovery / 100` only
when recovery correction was requested and a recovery value is available
for the row.  Rows whose correction factor is `undefined`, or whose
internal-standard or sample data is missing, are marked `notComputable`
rather than aborting the run. -/
def concentrationForRow (d : Dataset) (cfs : List CFEntry)
    (rcv : Option RecoveryResult) (useRecovery : Bool)
    (r : MeasurementRow) : ConcRow :=
  match cfLookup cfs r.compound_name, d.isConcOf r.compound_name,
      d.normPropertyOf r.sample_id with
  | some (CFValue.val f _), some k, some m =>
    let base := r.response * k * f / m
    let v :=
      if useRecovery then
        match rcv with
        | some res =>
          match recoveryLookup res r.sample_id r.compound_name with
          | some rec => base / (rec / 100)
          | none => base
        | none => base
      else base
    ⟨r.sample_id, r.compound_name, ConcValue.val v⟩
  | _, _, _ => ⟨r.sample_id, r.compound_name, ConcValue.notComputable⟩

/-- Modelled from the spec: the concentration result table, one row per
measurement row of the run. -/
def calculate_concentration (d : Dataset) (cfs : List CFEntry)
    (rcv : Option RecoveryResult) (useRecovery : Bool) : List ConcRow :=
  d.measurements.map (concentrationForRow d cfs rcv useRecovery)

/-- Modelled from the spec: one entry of the validation report —
`(rule_id, affected_key, message)`. -/
structure Violation where
  rule_id : String
  affected_key : String
  message : String
deriving DecidableEq, Repr

/-- Validation rule: uniqueness of `(sample_id, compound_name)` in the
measurement table; every duplicated key is reported. -/
def checkUniqueness (d : Dataset) : List Violation :=
  ((d.measurementKeys.filter
      (fun k => 2 ≤ d.measurementKeys.count k)).dedup).map
    (fun k => ⟨"measurement_key_uniqueness", k.1 ++ "/" ++ k.2,
      "duplicate (sample_id, compound_name) key"⟩)

/-- Validation rule: every compound of the measurement table has exactly
one entry in the internal-standard correspondence table; missing and
duplicated mappings are both reported. -/
def checkCorrespondence (d : Dataset) : List Violation :=
  ((d.compounds.filter (fun c => d.isIdOf c = none)).map
    (fun c => ⟨"is_correspondence_completeness", c,
      "compound has no internal-standard mapping"⟩))
  ++ ((d.compounds.filter
      (fun c => 2 ≤ (d.is_correspondence.map (·.1)).count c)).map
    (fun c => ⟨"is_correspondence_uniqueness", c,
      "compound has more than one internal-standard mapping"⟩))

/-- Validation rule: every internal-standard id referenced by the
correspondence table has an entry in the internal-standard-concentration
table. -/
def checkISConcCompleteness (d : Dataset) : List Violation :=
  (((d.is_correspondence.map (·.2)).dedup).filter
      (fun i => d.is_concentration.find? (fun p => p.1 == i) = none)).map
    (fun i => ⟨"is_concentration_completeness", i,
      "internal standard has no concentration entry"⟩)

/-- Validation rule: non-negativity of the response and concentration
columns. -/
def checkNonNegative (d : Dataset) : List Violation :=
  ((d.measurements.filter (fun r => r.response < 0)).map
    (fun r => ⟨"non_negative_response", r.sample_id ++ "/" ++
      r.compound_name, "negative response"⟩))
  ++ ((d.is_concentration.filter (fun p => p.2 < 0)).map
    (fun p => ⟨"non_negative_is_concentration", p.1,
      "negative internal-standard concentration"⟩))

/-- Modelled from the spec (`data.DataValidator.validate`): the structured
validation report, concatenating the violations of every rule (not just
the first). -/
def validate (d : Dataset) : List Violation :=
  checkUniqueness d ++ checkCorrespondence d ++ checkISConcCompleteness d
    ++ checkNonNegative d

/-- Modelled from the spec: the three calculation strategies.
`withoutRecovery` is the spec's Partial-no-recovery strategy (correction
factor + concentration, no spike samples); `minimal` is recovery only. -/
inductive Strategy where
  | full
  | withoutRecovery
  | minimal
deriving DecidableEq, Repr

/-- Modelled from the spec: the configuration error raised when the
requested outputs are not supported by the supplied inputs; names the
missing input. -/
structure StrategyConfigurationError where
  missing : String
deriving DecidableEq, Repr

/-- Modelled from the spec: a fatal pipeline error — a validation failure
carrying the full list of violations, or a strategy-configuration
error. -/
inductive PipelineError where
  | validation : List Violation → PipelineError
  | strategy : StrategyConfigurationError → PipelineError
deriving DecidableEq, Repr

/-- Modelled from the spec (`pipeline.StrategySelector`): the pure
strategy decision over dataset completeness.  With neither a QC table nor
an internal-standard-concentration table the configuration is invalid;
without the internal-standard-concentration table only recovery is
computable (Minimal); otherwise spike samples select Full and their
absence selects Partial-no-recovery. -/
def selectStrategy (d : Dataset) :
    Except StrategyConfigurationError Strategy :=
  if ¬ d.hasQC ∧ ¬ d.hasISConc then
    Except.error ⟨"qc_file and is_concentration_file"⟩
  else if ¬ d.hasISConc then Except.ok Strategy.minimal
  else if d.hasSpikes then Except.ok Strategy.full
  else Except.ok Strategy.withoutRecovery

/-- Modelled from the spec: the output tuple of the pipeline —
`(recovery, correction_factors, concentrations)`, each slot explicitly
`none` when its strategy was not selected. -/
structure PipelineResult where
  recovery : Option RecoveryResult
  correction_factors : Option (List CFEntry)
  concentrations : Option (List ConcRow)
deriving DecidableEq, Repr

/-- State-passing form of the correction-factor calculator: returns the
result table together with the dataset bundle it leaves behind (the
calculator is read-only, so the bundle is returned unchanged). -/
def calculate_correction_factor_run (d : Dataset) :
    List CFEntry × Dataset :=
  (calculate_correction_factor d, d)

/-- State-passing form of the recovery calculator (read-only on the
bundle). -/
def calculate_recovery_run (d : Dataset) : RecoveryResult × Dataset :=
  (calculate_recovery d, d)

/-- State-passing form of the concentration calculator (read-only on the
bundle). -/
def calculate_concentration_run (d : Dataset) (cfs : List CFEntry)
    (rcv : Option RecoveryResult) (useRecovery : Bool) :
    List ConcRow × Dataset :=
  (calculate_concentration d cfs rcv useRecovery, d)

/-- Executes the calculators of the selected strategy in dependency order
(correction factor before concentration; recovery injected into
concentration only under Full), threading the dataset bundle through each
calculator. -/
def runStrategy (d : Dataset) : Strategy → PipelineResult × Dataset
  | Strategy.full =>
    let (cf, d1) := calculate_correction_factor_run d
    let (rv, d2) := calculate_recovery_run d1
    let (cc, d3) := calculate_concentration_run d2 cf (some rv) true
    (⟨some rv, some cf, some cc⟩, d3)
  | Strategy.withoutRecovery =>
    let (cf, d1) := calculate_correction_factor_run d
    let (cc, d2) := calculate_concentration_run d1 cf none false
    (⟨none, some cf, some cc⟩, d2)
  | Strategy.minimal =>
    let (rv, d1) := calculate_recovery_run d
    (⟨some rv, none, none⟩, d1)

/-- Modelled from the spec (`pipeline.StrategySelector.execute`), in
state-passing form: validation runs first and a non-empty report aborts
with a `ValidationError` carrying the full list of violations, before any
calculator runs; then the strategy is selected (an invalid configuration
aborts with a `StrategyConfigurationError` before execution) and its
calculators are run in dependency order. -/
def execute_run (d : Dataset) :
    Except PipelineError PipelineResult × Dataset :=
  if validate d = [] then
    match selectStrategy d with
    | Except.error e => (Except.error (PipelineError.strategy e), d)
    | Except.ok s =>
      let (res, d1) := runStrategy d s
      (Except.ok res, d1)
  else (Except.error (PipelineError.validation (validate d)), d)

/-- The pipeline's result, forgetting the threaded bundle. -/
def execute (d : Dataset) : Except PipelineError PipelineResult :=
  (execute_run d).1

/-! ## Helper lemmas -/

/-- `correctionFactorFor` keys its row by the compound it was asked
about. -/
theorem correctionFactorFor_key (d : Dataset) (c : String) :
    (correctionFactorFor d c).compound_name = c := by
  unfold correctionFactorFor
  cases d.lookupQC c with
  | none => rfl
  | some e =>
    simp only []
    split <;> rfl

/-- A key with a measured concentration is a key of the measurement
table. -/
theorem measuredConc_key_mem (d : Dataset) (s c : String) (v : ℚ)
    (h : d.measuredConc s c = some v) :
    (s, c) ∈ d.measurementKeys := by
  unfold Dataset.measuredConc at h
  cases hf : d.findMeasurement s c with
  | none => rw [hf] at h; cases hk : d.isConcOf c <;> simp [hk] at h
  | some r =>
    have hr : r ∈ d.measurements := by
      have := List.mem_of_find?_eq_some hf
      exact this
    have hp := List.find?_some hf
    have hps : r.sample_id = s := by
      have := (Bool.and_eq_true _ _).mp hp
      exact eq_of_beq this.1
    have hpc : r.compound_name = c := by
      have := (Bool.and_eq_true _ _).mp hp
      exact eq_of_beq this.2
    unfold Dataset.measurementKeys
    have : (s, c) = (r.sample_id, r.compound_name) := by rw [hps, hpc]
    rw [this]
    exact List.mem_map_of_mem _ hr

/-- Membership in the candidate recovery pairs. -/
theorem mem_recoveryPairs (d : Dataset) (s : SampleRecord) (c : String) :
    (s, c) ∈ d.recoveryPairs ↔ s ∈ d.spikeSamples ∧ c ∈ d.compounds := by
  unfold Dataset.recoveryPairs
  constructor
  · intro h
    obtain ⟨s', hs', hc'⟩ := List.mem_flatMap.mp h
    obtain ⟨c', hc'', heq⟩ := List.mem_map.mp hc'
    obtain ⟨h1, h2⟩ := Prod.mk.injEq .. ▸ heq
    exact ⟨h1 ▸ hs', h2 ▸ hc''⟩
  · intro ⟨hs, hc⟩
    exact List.mem_flatMap.mpr ⟨s, hs, List.mem_map_of_mem _ hc⟩

/-- Characterization of a computed recovery row. -/
theorem recoveryRowFor_eq_some (d : Dataset) (s : SampleRecord)
    (c : String) (row : RecoveryRow)
    (h : recoveryRowFor d s c = some row) :
    row.sample_id = s.sample_id ∧ row.compound_name = c ∧
      ∃ nid sp nat, s.native_counterpart = some nid ∧
        d.measuredConc s.sample_id c = some sp ∧
        d.measuredConc nid c = some nat ∧
        row.value = (sp - nat) / s.spiked_amount * 100 := by
  unfold recoveryRowFor at h
  cases hnc : s.native_counterpart with
  | none =>
    rw [hnc] at h
    exact Option.noConfusion (show (none : Option RecoveryRow) = some row from h)
  | some nid =>
    rw [hnc] at h
    have h1 : (match d.measuredConc s.sample_id c,
        d.measuredConc nid c with
      | some sp, some nat =>
        some (⟨s.sample_id, c, (sp - nat) / s.spiked_amount * 100⟩ :
          RecoveryRow)
      | _, _ => none) = some row := h
    cases hsp : d.measuredConc s.sample_id c with
    | none =>
      rw [hsp] at h1
      exact Option.noConfusion
        (show (none : Option RecoveryRow) = some row from h1)
    | some sp =>
      rw [hsp] at h1
      cases hnt : d.measuredConc nid c with
      | none =>
        rw [hnt] at h1
        exact Option.noConfusion
          (show (none : Option RecoveryRow) = some row from h1)
      | some nat =>
        rw [hnt] at h1
        have h' : some
            (⟨s.sample_id, c, (sp - nat) / s.spiked_amount * 100⟩ :
              RecoveryRow) = some row := h1
        have hrow := (Option.some.inj h').symm
        subst hrow
        exact ⟨rfl, rfl, nid, sp, nat, rfl, rfl, hnt, rfl⟩

/-- `concentrationForRow` keys its row by the measurement row's key. -/
theorem concentrationForRow_key (d : Dataset) (cfs : List CFEntry)
    (rcv : Option RecoveryResult) (u : Bool) (r : MeasurementRow) :
    (concentrationForRow d cfs rcv u r).sample_id = r.sample_id ∧
    (concentrationForRow d cfs rcv u r).compound_name = r.compound_name := by
  unfold concentrationForRow
  cases cfLookup cfs r.compound_name with
  | none => exact ⟨rfl, rfl⟩
  | some v =>
    cases v with
    | undefined =>
      cases d.isConcOf r.compound_name <;>
        cases d.normPropertyOf r.sample_id <;> exact ⟨rfl, rfl⟩
    | val f t =>
      cases d.isConcOf r.compound_name with
      | none => cases d.normPropertyOf r.sample_id <;> exact ⟨rfl, rfl⟩
      | some k => cases d.normPropertyOf r.sample_id <;> exact ⟨rfl, rfl⟩

/-- The pipeline threads the dataset bundle through unchanged. -/
theorem execute_run_snd (d : Dataset) : (execute_run d).2 = d := by
  unfold execute_run
  by_cases hv : validate d = []
  · rw [if_pos hv]
    cases hsel : selectStrategy d with
    | error e => rfl
    | ok s => cases s <;> rfl
  · rw [if_neg hv]

/-- A successful pipeline run produces one of the three strategy-shaped
result tuples. -/
theorem execute_ok_cases (d : Dataset) (res : PipelineResult)
    (h : execute d = Except.ok res) :
    res = ⟨some (calculate_recovery d), some (calculate_correction_factor d),
      some (calculate_concentration d (calculate_correction_factor d)
        (some (calculate_recovery d)) true)⟩ ∨
    res = ⟨none, some (calculate_correction_factor d),
      some (calculate_concentration d (calculate_correction_factor d)
        none false)⟩ ∨
    res = ⟨some (calculate_recovery d), none, none⟩ := by
  unfold execute execute_run at h
  by_cases hv : validate d = []
  · rw [if_pos hv] at h
    cases hsel : selectStrategy d with
    | error e =>
      rw [hsel] at h
      exact Except.noConfusion
        (show (Except.error (PipelineError.strategy e) :
          Except PipelineError PipelineResult) = Except.ok res from h)
    | ok s =>
      rw [hsel] at h
      cases s with
      | full =>
        left
        have h' : Except.ok (ε := PipelineError)
            (⟨some (calculate_recovery d),
              some (calculate_correction_factor d),
              some (calculate_concentration d
                (calculate_correction_factor d)
                (some (calculate_recovery d)) true)⟩ : PipelineResult)
            = Except.ok res := h
        exact (Except.ok.inj h').symm
      | withoutRecovery =>
        right; left
        have h' : Except.ok (ε := PipelineError)
            (⟨none, some (calculate_correction_factor d),
              some (calculate_concentration d
                (calculate_correction_factor d) none false)⟩ :
              PipelineResult) = Except.ok res := h
        exact (Except.ok.inj h').symm
      | minimal =>
        right; right
        have h' : Except.ok (ε := PipelineError)
            (⟨some (calculate_recovery d), none, none⟩ : PipelineResult)
            = Except.ok res := h
        exact (Except.ok.inj h').symm
  · rw [if_neg hv] at h
    exact Except.noConfusion
      (show (Except.error (PipelineError.validation (validate d)) :
        Except PipelineError PipelineResult) = Except.ok res from h)

/-- Every computed recovery row is keyed by a key of the measurement
table. -/
theorem recovery_rows_keys (d : Dataset) (row : RecoveryRow)
    (h : row ∈ (calculate_recovery d).rows) :
    (row.sample_id, row.compound_name) ∈ d.measurementKeys := by
  unfold calculate_recovery at h
  obtain ⟨⟨s, c⟩, _hp, hf⟩ := List.mem_filterMap.mp h
  obtain ⟨h1, h2, _nid, sp, _nat, _hnc, hsp, _hnt, _hval⟩ :=
    recoveryRowFor_eq_some d s c row hf
  rw [h1, h2]
  exact measuredConc_key_mem d s.sample_id c sp hsp

/-- Every correction-factor row is keyed by a compound of the measurement
table. -/
theorem cf_compound_mem (d : Dataset) (e : CFEntry)
    (h : e ∈ calculate_correction_factor d) :
    e.compound_name ∈ d.measurements.map (·.compound_name) := by
  unfold calculate_correction_factor at h
  obtain ⟨c, hc, he⟩ := List.mem_map.mp h
  rw [← he, correctionFactorFor_key]
  unfold Dataset.compounds at hc
  exact List.mem_dedup.mp hc

/-- Every concentration row is keyed by a key of the measurement table. -/
theorem conc_keys_mem (d : Dataset) (cfs : List CFEntry)
    (rcv : Option RecoveryResult) (u : Bool) (row : ConcRow)
    (h : row ∈ calculate_concentration d cfs rcv u) :
    (row.sample_id, row.compound_name) ∈ d.measurementKeys := by
  unfold calculate_concentration at h
  obtain ⟨r, hr, he⟩ := List.mem_map.mp h
  obtain ⟨h1, h2⟩ := concentrationForRow_key d cfs rcv u r
  rw [← he, h1, h2]
  exact List.mem_map_of_mem _ hr

/-- Value characterization of a fully-joined concentration row. -/
theorem concentrationForRow_val (d : Dataset) (cfs : List CFEntry)
    (rcv : Option RecoveryResult) (u : Bool) (r : MeasurementRow)
    (f : ℚ) (t : CFTag) (k m : ℚ)
    (hcf : cfLookup cfs r.compound_name = some (CFValue.val f t))
    (hk : d.isConcOf r.compound_name = some k)
    (hm : d.normPropertyOf r.sample_id = some m) :
    concentrationForRow d cfs rcv u r =
      ⟨r.sample_id, r.compound_name, ConcValue.val
        (if u then
          match rcv with
          | some res =>
            match recoveryLookup res r.sample_id r.compound_name with
            | some rec => r.response * k * f / m / (rec / 100)
            | none => r.response * k * f / m
          | none => r.response * k * f / m
        else r.response * k * f / m)⟩ := by
  unfold concentrationForRow
  rw [hcf, hk, hm]

/-! ## Example datasets used by the witnesses -/

/-- A run with one QC sample measuring compound `X` at concentration 50
(response 5 × IS concentration 10) against an expected concentration of
100, and a compound `Y` absent from the QC table. -/
def dsC1 : Dataset := Data
  [⟨"QC1", "X", 5⟩, ⟨"QC1", "Y", 3⟩]
  [("X", "ISX"), ("Y", "ISY")]
  [⟨"QC1", SampleType.qc, 1, none, 0⟩]
  [⟨"X", 100⟩]
  [("ISX", 10), ("ISY", 10)]

/-- A run with a single unknown sample of mass 1 and response 2 for
compound `X` (IS concentration 10). -/
def dsC2 : Dataset := Data
  [⟨"S1", "X", 2⟩]
  [("X", "ISX")]
  [⟨"S1", SampleType.unknown, 1, none, 0⟩]
  []
  [("ISX", 10)]

/-- A correction-factor table assigning factor `1.5` to compound `X`. -/
def cfsC2 : List CFEntry := [⟨"X", CFValue.val (3 / 2) CFTag.measured⟩]

/-- A recovery result with recovery 120 % for `("S1", "X")`. -/
def resC2 : RecoveryResult := ⟨[⟨"S1", "X", 120⟩], []⟩

/-! ## Claims -/

/-- C1: for every compound of the run with a QC reference entry,
`calculate_correction_factor` returns the expected concentration divided
by the arithmetic mean of the measured QC-sample concentrations, tagged
`measured`; for every compound absent from the QC table it returns the
default factor `1.0` tagged `default`. -/
theorem correction_factor_spec (d : Dataset) (c : String)
    (hc : c ∈ d.compounds) :
    (∀ e, d.lookupQC c = some e → mean (d.qcMeasuredConcs c) ≠ 0 →
      CFEntry.mk c (CFValue.val
        (e.expected_concentration / mean (d.qcMeasuredConcs c))
        CFTag.measured) ∈ calculate_correction_factor d) ∧
    (d.lookupQC c = none →
      CFEntry.mk c (CFValue.val 1 CFTag.default)
        ∈ calculate_correction_factor d) := by
  constructor
  · intro e he hm
    have hmem := List.mem_map_of_mem (correctionFactorFor d) hc
    have heq : correctionFactorFor d c =
        ⟨c, CFValue.val
          (e.expected_concentration / mean (d.qcMeasuredConcs c))
          CFTag.measured⟩ := by
      unfold correctionFactorFor
      rw [he]
      simp [hm]
    rw [heq] at hmem
    exact hmem
  · intro he
    have hmem := List.mem_map_of_mem (correctionFactorFor d) hc
    have heq : correctionFactorFor d c =
        ⟨c, CFValue.val 1 CFTag.default⟩ := by
      unfold correctionFactorFor
      rw [he]
    rw [heq] at hmem
    exact hmem

/-- C1 witness: in `dsC1`, compound `X` (expected 100, measured 50) gets
factor 2 tagged `measured` and compound `Y` (absent from the QC table)
gets factor 1 tagged `default`. -/
theorem correction_factor_spec_witness :
    CFEntry.mk "X" (CFValue.val 2 CFTag.measured)
      ∈ calculate_correction_factor dsC1 ∧
    CFEntry.mk "Y" (CFValue.val 1 CFTag.default)
      ∈ calculate_correction_factor dsC1 := by
  have hqc : dsC1.qcMeasuredConcs "X" = [50] := by
    norm_num +decide [dsC1, Data, Dataset.qcMeasuredConcs,
      Dataset.qcSampleIds, Dataset.measuredConc, Dataset.findMeasurement,
      Dataset.isConcOf, Dataset.isIdOf, List.filterMap_cons, List.find?]
  have hmean : mean (dsC1.qcMeasuredConcs "X") = 50 := by
    rw [hqc]; norm_num [mean]
  constructor
  · have h := (correction_factor_spec dsC1 "X" (by decide)).1
      ⟨"X", 100⟩ rfl (by rw [hmean]; norm_num)
    rw [hmean] at h
    norm_num at h
    exact h
  · exact (correction_factor_spec dsC1 "Y" (by decide)).2 rfl

/-- C2: for every measurement row with a numeric correction factor,
`calculate_concentration` reports
`response × IS-concentration × correction-factor / normalization
property`, further divided by `recovery / 100` exactly when recovery
correction was requested and a recovery value is available for the
row. -/
theorem concentration_spec (d : Dataset) (cfs : List CFEntry)
    (rcv : Option RecoveryResult) (useRecovery : Bool)
    (r : MeasurementRow) (f : ℚ) (t : CFTag) (k m : ℚ)
    (hr : r ∈ d.measurements)
    (hcf : cfLookup cfs r.compound_name = some (CFValue.val f t))
    (hk : d.isConcOf r.compound_name = some k)
    (hm : d.normPropertyOf r.sample_id = some m) :
    (useRecovery = false →
      ConcRow.mk r.sample_id r.compound_name
        (ConcValue.val (r.response * k * f / m))
        ∈ calculate_concentration d cfs rcv useRecovery) ∧
    (∀ res, rcv = some res →
      recoveryLookup res r.sample_id r.compound_name = none →
      ConcRow.mk r.sample_id r.compound_name
        (ConcValue.val (r.response * k * f / m))
        ∈ calculate_concentration d cfs rcv useRecovery) ∧
    (∀ res rec, useRecovery = true → rcv = some res →
      recoveryLookup res r.sample_id r.compound_name = some rec →
      ConcRow.mk r.sample_id r.compound_name
        (ConcValue.val (r.response * k * f / m / (rec / 100)))
        ∈ calculate_concentration d cfs rcv useRecovery) := by
  have hval := concentrationForRow_val d cfs rcv useRecovery r f t k m
    hcf hk hm
  have hmem := List.mem_map_of_mem
    (concentrationForRow d cfs rcv useRecovery) hr
  rw [hval] at hmem
  refine ⟨?_, ?_, ?_⟩
  · intro hu
    subst hu
    exact hmem
  · intro res hrcv hlk
    subst hrcv
    have hmem2 : ConcRow.mk r.sample_id r.compound_name (ConcValue.val
        (if useRecovery then
          match recoveryLookup res r.sample_id r.compound_name with
          | some rec => r.response * k * f / m / (rec / 100)
          | none => r.response * k * f / m
        else r.response * k * f / m))
        ∈ List.map (concentrationForRow d cfs (some res) useRecovery)
          d.measurements := hmem
    rw [hlk] at hmem2
    cases useRecovery <;> exact hmem2
  · intro res rec hu hrcv hlk
    subst hu
    subst hrcv
    have hmem2 : ConcRow.mk r.sample_id r.compound_name (ConcValue.val
        (match recoveryLookup res r.sample_id r.compound_name with
          | some rec => r.response * k * f / m / (rec / 100)
          | none => r.response * k * f / m))
        ∈ List.map (concentrationForRow d cfs (some res) true)
          d.measurements := hmem
    rw [hlk] at hmem2
    exact hmem2

/-- C2 witness: in `dsC2` with factor 1.5 for `X`, the row
`("S1", "X")` reports 30 without recovery correction and 25 after
applying recovery 120 %. -/
theorem concentration_spec_witness :
    ConcRow.mk "S1" "X" (ConcValue.val 30)
      ∈ calculate_concentration dsC2 cfsC2 none false ∧
    ConcRow.mk "S1" "X" (ConcValue.val 25)
      ∈ calculate_concentration dsC2 cfsC2 (some resC2) true := by
  constructor
  · have h := (concentration_spec dsC2 cfsC2 none false ⟨"S1", "X", 2⟩
      (3 / 2) CFTag.measured 10 1 (by decide) rfl rfl rfl).1 rfl
    norm_num at h
    exact h
  · have h := (concentration_spec dsC2 cfsC2 (some resC2) true
      ⟨"S1", "X", 2⟩ (3 / 2) CFTag.measured 10 1 (by decide) rfl rfl
      rfl).2.2 resC2 120 rfl rfl rfl
    norm_num at h
    exact h

/-- A spike sample with native counterpart `N1` and spiked amount 50. -/
def spikeS1 : SampleRecord := ⟨"S1", SampleType.spike, 1, some "N1", 50⟩

/-- A spike sample whose native counterpart `N2` has no measurement
row. -/
def spikeS2 : SampleRecord := ⟨"S2", SampleType.spike, 1, some "N2", 50⟩

/-- A run with two spike samples: `S1` (spiked 80, native 20, amount 50)
and `S2`, whose native counterpart `N2` is missing from the measurement
table. -/
def dsC3 : Dataset := Data
  [⟨"S1", "X", 8⟩, ⟨"N1", "X", 2⟩, ⟨"S2", "X", 4⟩]
  [("X", "ISX")]
  [spikeS1, spikeS2, ⟨"N1", SampleType.unknown, 1, none, 0⟩]
  []
  [("ISX", 10)]

/-- C3: for every spike-tagged sample with an existing native counterpart
measurement, `calculate_recovery` reports
`(spiked − native) / spiked_amount × 100` computed from IS-normalized
measurements; a pair whose native counterpart measurement is missing is
absent from the rows and recorded as a gap with reason
`missing_native`. -/
theorem recovery_spec (d : Dataset) (s : SampleRecord) (c : String)
    (hs : s ∈ d.sample_properties)
    (hty : s.sample_type = SampleType.spike) (hc : c ∈ d.compounds) :
    (∀ nid sp nat, s.native_counterpart = some nid →
      d.measuredConc s.sample_id c = some sp →
      d.measuredConc nid c = some nat →
      RecoveryRow.mk s.sample_id c ((sp - nat) / s.spiked_amount * 100)
        ∈ (calculate_recovery d).rows) ∧
    (∀ sp, d.measuredConc s.sample_id c = some sp →
      (s.native_counterpart = none ∨
        ∃ nid, s.native_counterpart = some nid ∧
          d.measuredConc nid c = none) →
      RecoveryGap.mk s.sample_id c "missing_native"
        ∈ (calculate_recovery d).gaps ∧
      ((∀ s2 ∈ d.sample_properties, s2.sample_id = s.sample_id → s2 = s) →
        ∀ row ∈ (calculate_recovery d).rows,
          ¬ (row.sample_id = s.sample_id ∧ row.compound_name = c))) := by
  have hspike : s ∈ d.spikeSamples := by
    unfold Dataset.spikeSamples
    refine List.mem_filter.mpr ⟨hs, ?_⟩
    rw [hty]
    rfl
  have hpair : (s, c) ∈ d.recoveryPairs :=
    (mem_recoveryPairs d s c).mpr ⟨hspike, hc⟩
  have hrows : (calculate_recovery d).rows =
      d.recoveryPairs.filterMap (fun p => recoveryRowFor d p.1 p.2) := rfl
  have hgaps : (calculate_recovery d).gaps =
      d.recoveryPairs.filterMap (fun p => recoveryGapFor d p.1 p.2) := rfl
  constructor
  · intro nid sp nat hnc hsp hnt
    rw [hrows]
    refine List.mem_filterMap.mpr ⟨(s, c), hpair, ?_⟩
    unfold recoveryRowFor
    rw [hnc]
    show (match d.measuredConc s.sample_id c, d.measuredConc nid c with
      | some sp, some nat =>
        some (⟨s.sample_id, c, (sp - nat) / s.spiked_amount * 100⟩ :
          RecoveryRow)
      | _, _ => none) =
        some ⟨s.sample_id, c, (sp - nat) / s.spiked_amount * 100⟩
    rw [hsp, hnt]
  · intro sp hsp hmiss
    constructor
    · rw [hgaps]
      refine List.mem_filterMap.mpr ⟨(s, c), hpair, ?_⟩
      unfold recoveryGapFor
      rw [hsp]
      show (match s.native_counterpart with
        | none =>
          some (⟨s.sample_id, c, "missing_native"⟩ : RecoveryGap)
        | some nid =>
          match d.measuredConc nid c with
          | some _ => none
          | none =>
            some (⟨s.sample_id, c, "missing_native"⟩ : RecoveryGap)) =
          some ⟨s.sample_id, c, "missing_native"⟩
      rcases hmiss with hn | ⟨nid, hnid, hmc⟩
      · rw [hn]
      · rw [hnid]
        show (match d.measuredConc nid c with
          | some _ => none
          | none =>
            some (⟨s.sample_id, c, "missing_native"⟩ : RecoveryGap)) =
            some ⟨s.sample_id, c, "missing_native"⟩
        rw [hmc]
    · intro huniq row hrow hkey
      rw [hrows] at hrow
      obtain ⟨⟨s2, c2⟩, hp2, hf2⟩ := List.mem_filterMap.mp hrow
      obtain ⟨h1, h2, nid2, sp2, nat2, hnc2, hsp2, hnt2, hv2⟩ :=
        recoveryRowFor_eq_some d s2 c2 row hf2
      have hs2mem : s2 ∈ d.sample_properties := by
        have := ((mem_recoveryPairs d s2 c2).mp hp2).1
        unfold Dataset.spikeSamples at this
        exact List.mem_of_mem_filter this
      have hid : s2.sample_id = s.sample_id := by rw [← h1]; exact hkey.1
      have hss : s2 = s := huniq s2 hs2mem hid
      subst hss
      have hcc : c2 = c := by rw [← h2]; exact hkey.2
      subst hcc
      rcases hmiss with hn | ⟨nid, hnid, hmc⟩
      · rw [hn] at hnc2
        exact Option.noConfusion hnc2
      · rw [hnid] at hnc2
        have hnn := Option.some.inj hnc2
        rw [← hnn] at hnt2
        rw [hmc] at hnt2
        exact Option.noConfusion hnt2

/-- C3 witness: in `dsC3`, `("S1", "X")` gets recovery
`(80 − 20) / 50 × 100 = 120`, while `("S2", "X")` is absent from the
rows and recorded as a `missing_native` gap. -/
theorem recovery_spec_witness :
    RecoveryRow.mk "S1" "X" 120 ∈ (calculate_recovery dsC3).rows ∧
    RecoveryGap.mk "S2" "X" "missing_native"
      ∈ (calculate_recovery dsC3).gaps ∧
    ∀ row ∈ (calculate_recovery dsC3).rows,
      ¬ (row.sample_id = "S2" ∧ row.compound_name = "X") := by
  have hsp1 : dsC3.measuredConc spikeS1.sample_id "X" = some 80 := by
    norm_num +decide [dsC3, spikeS1, Data, Dataset.measuredConc,
      Dataset.findMeasurement, Dataset.isConcOf, Dataset.isIdOf,
      List.find?]
  have hnt1 : dsC3.measuredConc "N1" "X" = some 20 := by
    have h0 : dsC3.measuredConc "N1" "X" = some ((2 : ℚ) * 10) := rfl
    rw [h0]
    norm_num
  have hsp2 : dsC3.measuredConc spikeS2.sample_id "X" = some 40 := by
    have h0 : dsC3.measuredConc spikeS2.sample_id "X" =
        some ((4 : ℚ) * 10) := rfl
    rw [h0]
    norm_num
  have hn2 : dsC3.measuredConc "N2" "X" = none := rfl
  have h1 := (recovery_spec dsC3 spikeS1 "X" (by decide) rfl
    (by decide)).1 "N1" 80 20 rfl hsp1 hnt1
  have h2 := (recovery_spec dsC3 spikeS2 "X" (by decide) rfl
    (by decide)).2 40 hsp2 (Or.inr ⟨"N2", rfl, hn2⟩)
  refine ⟨?_, ?_, ?_⟩
  · norm_num [spikeS1] at h1
    exact h1
  · exact h2.1
  · exact h2.2 (by decide)

/-- A valid run with a QC table and an IS-concentration table but no
spike samples. -/
def dsC4 : Dataset := Data
  [⟨"S1", "X", 2⟩]
  [("X", "ISX")]
  [⟨"S1", SampleType.unknown, 1, none, 0⟩]
  [⟨"X", 100⟩]
  [("ISX", 10)]

/-- A (vacuously valid) run supplied with neither QC entries nor
IS-concentration entries. -/
def dsC4b : Dataset := Data [] [] [] [] []

/-- C4: on a validated dataset with a QC table, no spike samples and an
IS-concentration table, `execute` selects Partial-no-recovery and
returns `(none, correction factors, concentrations)`; with neither a QC
table nor an IS-concentration table it fails with a
strategy-configuration error, producing no result tables. -/
theorem strategy_spec (d : Dataset) (hv : validate d = []) :
    (d.hasQC → ¬ d.hasSpikes → d.hasISConc →
      execute d = Except.ok ⟨none, some (calculate_correction_factor d),
        some (calculate_concentration d (calculate_correction_factor d)
          none false)⟩) ∧
    (¬ d.hasQC → ¬ d.hasISConc →
      execute d = Except.error (PipelineError.strategy
        ⟨"qc_file and is_concentration_file"⟩)) := by
  constructor
  · intro hq hns hi
    unfold execute execute_run
    rw [if_pos hv]
    have hsel : selectStrategy d = Except.ok Strategy.withoutRecovery := by
      unfold selectStrategy
      rw [if_neg (fun h => h.1 hq), if_neg (fun h => h hi), if_neg hns]
    rw [hsel]
    rfl
  · intro hnq hni
    unfold execute execute_run
    rw [if_pos hv]
    have hsel : selectStrategy d = Except.error
        ⟨"qc_file and is_concentration_file"⟩ := by
      unfold selectStrategy
      rw [if_pos ⟨hnq, hni⟩]
    rw [hsel]

/-- C4 witness: `dsC4` (QC table, no spikes) returns the
Partial-no-recovery tuple with an explicit `none` recovery slot, and
`dsC4b` (no QC, no IS concentrations) raises the configuration error. -/
theorem strategy_spec_witness :
    execute dsC4 = Except.ok ⟨none,
      some (calculate_correction_factor dsC4),
      some (calculate_concentration dsC4
        (calculate_correction_factor dsC4) none false)⟩ ∧
    execute dsC4b = Except.error (PipelineError.strategy
      ⟨"qc_file and is_concentration_file"⟩) := by
  constructor
  · exact (strategy_spec dsC4 (by decide)).1 (by decide) (by decide)
      (by decide)
  · exact (strategy_spec dsC4b (by decide)).2 (by decide) (by decide)

/-- A run whose only QC sample measures compound `X` at concentration
zero. -/
def dsC5 : Dataset := Data
  [⟨"QC1", "X", 0⟩, ⟨"S1", "X", 2⟩]
  [("X", "ISX")]
  [⟨"QC1", SampleType.qc, 1, none, 0⟩,
    ⟨"S1", SampleType.unknown, 1, none, 0⟩]
  [⟨"X", 100⟩]
  [("ISX", 10)]

/-- C5: a compound with a QC entry whose mean measured QC concentration
is zero gets the sentinel `undefined` correction factor (not a number),
and `calculate_concentration` marks every row of that compound
`notComputable` while still producing an output row for every
measurement row of the run. -/
theorem undefined_cf_spec (d : Dataset) (c : String) (e : QCEntry)
    (hc : c ∈ d.compounds) (he : d.lookupQC c = some e)
    (hm : mean (d.qcMeasuredConcs c) = 0) :
    CFEntry.mk c CFValue.undefined ∈ calculate_correction_factor d ∧
    ∀ cfs rcv u, cfLookup cfs c = some CFValue.undefined →
      (calculate_concentration d cfs rcv u).length =
        d.measurements.length ∧
      ∀ r ∈ d.measurements, r.compound_name = c →
        ConcRow.mk r.sample_id c ConcValue.notComputable
          ∈ calculate_concentration d cfs rcv u := by
  constructor
  · have hmem := List.mem_map_of_mem (correctionFactorFor d) hc
    have heq : correctionFactorFor d c = ⟨c, CFValue.undefined⟩ := by
      unfold correctionFactorFor
      rw [he]
      simp [hm]
    rw [heq] at hmem
    exact hmem
  · intro cfs rcv u hcf
    constructor
    · unfold calculate_concentration
      exact List.length_map ..
    · intro r hr hrc
      have hmem := List.mem_map_of_mem (concentrationForRow d cfs rcv u) hr
      have heq : concentrationForRow d cfs rcv u r =
          ⟨r.sample_id, c, ConcValue.notComputable⟩ := by
        unfold concentrationForRow
        rw [hrc, hcf]
      rw [heq] at hmem
      exact hmem

/-- C5 witness: in `dsC5` (QC measured zero for `X`), the correction
factor of `X` is `undefined`; with that factor the run still produces
one concentration row per measurement row and marks `("S1", "X")`
`notComputable`. -/
theorem undefined_cf_spec_witness :
    CFEntry.mk "X" CFValue.undefined
      ∈ calculate_correction_factor dsC5 ∧
    (calculate_concentration dsC5 [⟨"X", CFValue.undefined⟩]
      none false).length = dsC5.measurements.length ∧
    ConcRow.mk "S1" "X" ConcValue.notComputable
      ∈ calculate_concentration dsC5 [⟨"X", CFValue.undefined⟩]
        none false := by
  have hm : mean (dsC5.qcMeasuredConcs "X") = 0 := by
    have h0 : dsC5.qcMeasuredConcs "X" = [(0 : ℚ) * 10] := rfl
    rw [h0]
    norm_num [mean]
  have h := undefined_cf_spec dsC5 "X" ⟨"X", 100⟩ (by decide) rfl hm
  have h2 := h.2 [⟨"X", CFValue.undefined⟩] none false rfl
  exact ⟨h.1, h2.1, h2.2 ⟨"S1", "X", 2⟩ (by decide) rfl⟩

/-- A run with a duplicated `(sample_id, compound_name)` measurement
key. -/
def dsC6 : Dataset := Data
  [⟨"S1", "X", 2⟩, ⟨"S1", "X", 3⟩]
  [("X", "ISX")]
  []
  []
  [("ISX", 10)]

/-- C6: on a dataset failing validation, `execute` aborts with a
validation error carrying the full structured report, and the report
contains every rule's violations (not only the first). -/
theorem validation_spec (d : Dataset) (hv : validate d ≠ []) :
    execute d = Except.error (PipelineError.validation (validate d)) ∧
    ∀ v, (v ∈ checkUniqueness d ∨ v ∈ checkCorrespondence d ∨
      v ∈ checkISConcCompleteness d ∨ v ∈ checkNonNegative d) →
      v ∈ validate d := by
  constructor
  · unfold execute execute_run
    rw [if_neg hv]
  · intro v hvv
    simp only [validate, List.mem_append]
    tauto

/-- C6 witness: `dsC6` (duplicate key `("S1", "X")`) aborts with the
validation error, whose report contains the uniqueness violation. -/
theorem validation_spec_witness :
    execute dsC6 = Except.error
      (PipelineError.validation (validate dsC6)) ∧
    Violation.mk "measurement_key_uniqueness" "S1/X"
      "duplicate (sample_id, compound_name) key" ∈ validate dsC6 := by
  have h := validation_spec dsC6 (by decide)
  exact ⟨h.1, h.2 _ (Or.inl (by decide))⟩

/-- The Partial-no-recovery result tuple of `dsC4`. -/
def pr4 : PipelineResult :=
  ⟨none, some (calculate_correction_factor dsC4),
    some (calculate_concentration dsC4
      (calculate_correction_factor dsC4) none false)⟩

/-- C7: every key of every result table of a successful pipeline run is
a key of the input measurement table — no operation fabricates rows. -/
theorem roundtrip_spec (d : Dataset) (res : PipelineResult)
    (h : execute d = Except.ok res) :
    (∀ R, res.recovery = some R → ∀ row ∈ R.rows,
      (row.sample_id, row.compound_name) ∈ d.measurementKeys) ∧
    (∀ cfs, res.correction_factors = some cfs → ∀ e ∈ cfs,
      e.compound_name ∈ d.measurements.map (fun r => r.compound_name)) ∧
    (∀ cs, res.concentrations = some cs → ∀ row ∈ cs,
      (row.sample_id, row.compound_name) ∈ d.measurementKeys) := by
  rcases execute_ok_cases d res h with hres | hres | hres <;> subst hres
  · refine ⟨?_, ?_, ?_⟩
    · intro R hR row hrow
      have hR' : some (calculate_recovery d) = some R := hR
      have hRe : R = calculate_recovery d := (Option.some.inj hR').symm
      subst hRe
      exact recovery_rows_keys d row hrow
    · intro cfs hcfs e he
      have h' : some (calculate_correction_factor d) = some cfs := hcfs
      have hce : cfs = calculate_correction_factor d :=
        (Option.some.inj h').symm
      subst hce
      exact cf_compound_mem d e he
    · intro cs hcs row hrow
      have h' : some (calculate_concentration d
        (calculate_correction_factor d)
        (some (calculate_recovery d)) true) = some cs := hcs
      have hce : cs = calculate_concentration d
          (calculate_correction_factor d)
          (some (calculate_recovery d)) true := (Option.some.inj h').symm
      subst hce
      exact conc_keys_mem d _ _ _ row hrow
  · refine ⟨?_, ?_, ?_⟩
    · intro R hR row hrow
      exact Option.noConfusion
        (show (none : Option RecoveryResult) = some R from hR)
    · intro cfs hcfs e he
      have h' : some (calculate_correction_factor d) = some cfs := hcfs
      have hce : cfs = calculate_correction_factor d :=
        (Option.some.inj h').symm
      subst hce
      exact cf_compound_mem d e he
    · intro cs hcs row hrow
      have h' : some (calculate_concentration d
        (calculate_correction_factor d) none false) = some cs := hcs
      have hce : cs = calculate_concentration d
          (calculate_correction_factor d) none false :=
        (Option.some.inj h').symm
      subst hce
      exact conc_keys_mem d _ _ _ row hrow
  · refine ⟨?_, ?_, ?_⟩
    · intro R hR row hrow
      have hR' : some (calculate_recovery d) = some R := hR
      have hRe : R = calculate_recovery d := (Option.some.inj hR').symm
      subst hRe
      exact recovery_rows_keys d row hrow
    · intro cfs hcfs e he
      exact Option.noConfusion
        (show (none : Option (List CFEntry)) = some cfs from hcfs)
    · intro cs hcs row hrow
      exact Option.noConfusion
        (show (none : Option (List ConcRow)) = some cs from hcs)

/-- C7 witness: the successful run on `dsC4` produces tables whose keys
all come from `dsC4`'s measurement table. -/
theorem roundtrip_spec_witness :
    execute dsC4 = Except.ok pr4 ∧
    ((∀ R, pr4.recovery = some R → ∀ row ∈ R.rows,
      (row.sample_id, row.compound_name) ∈ dsC4.measurementKeys) ∧
    (∀ cfs, pr4.correction_factors = some cfs → ∀ e ∈ cfs,
      e.compound_name ∈ dsC4.measurements.map (fun r => r.compound_name)) ∧
    (∀ cs, pr4.concentrations = some cs → ∀ row ∈ cs,
      (row.sample_id, row.compound_name) ∈ dsC4.measurementKeys)) :=
  ⟨rfl, roundtrip_spec dsC4 pr4 rfl⟩

/-- C8: the pipeline is deterministic and mutates no shared state —
running it again on the bundle threaded out of a run reproduces the run
exactly. -/
theorem idempotence_spec (d : Dataset) :
    execute_run ((execute_run d).2) = execute_run d := by
  rw [execute_run_snd]

/-- C9: no calculator modifies the dataset bundle: each of the three
calculators, and the whole pipeline, returns the bundle unchanged while
producing a fresh result table. -/
theorem readonly_spec (d : Dataset) :
    (calculate_correction_factor_run d).2 = d ∧
    (calculate_recovery_run d).2 = d ∧
    (∀ cfs rcv u, (calculate_concentration_run d cfs rcv u).2 = d) ∧
    (execute_run d).2 = d :=
  ⟨rfl, rfl, fun _ _ _ => rfl, execute_run_snd d⟩

/-- C10: the public constructor requires all five named tables — every
dataset bundle is the image of `Data` applied to its five components
(there is no construction path omitting the QC or IS-concentration
table), and `Data` stores exactly the supplied tables. -/
theorem construction_spec (d : Dataset) :
    d = Data d.measurements d.is_correspondence d.sample_properties
      d.qc_table d.is_concentration ∧
    ∀ q ic sp qc isc, (Data q ic sp qc isc).qc_table = qc ∧
      (Data q ic sp qc isc).is_concentration = isc :=
  ⟨rfl, fun _ _ _ _ _ => ⟨rfl, rfl⟩⟩
